import Mathlib

/-!
# FiadoApp ledger service — shallow embedding and verification

This file embeds the data model and the business-scoped operations of the
FiadoApp API (`src/main.py`) and proves properties about them.

Modelling conventions:
* SQL `REAL` money amounts are modelled as `Rat` (the operations used are
  `+`, `-`, `max`, comparisons, all exact on the values exercised here).
* Each table is a list of rows held in a `DB` record, together with the
  next auto-increment id for each table and the current clock value `now`
  (`NOW()` / `datetime('now','localtime')`).
* Timestamps are a `Fecha` record: `day` counts days since an epoch chosen
  so that day 0 is a Monday (so the start of the ISO week containing a
  timestamp is `day - day % 7`); `sec` is the second within the day; `ym`
  carries the Gregorian year-month index of the timestamp, used only by the
  `mes` period filter (no claim needs calendar arithmetic, so the
  year-month is carried as data rather than recomputed from `day`).
* The two SQL backends (PostgreSQL when `DATABASE_URL` is set, SQLite
  otherwise) are selected by a boolean `pg` wherever their behaviour
  differs: the `LIKE` collation (case-insensitive for ASCII in SQLite,
  case-sensitive in PostgreSQL) and the period filters of
  `get_periodo_filter`.
* Endpoints are modelled after session resolution: the handlers receive the
  active business id `nid` that `get_negocio_id(session)` returns, exactly
  as the Python handler bodies do.  Mutating handlers return the updated
  `DB` paired with `Except Err α`; a raised `HTTPException` is an `.error`
  and, as in the source, occurs before any write is committed, so the
  returned state is the input state.
-/

/-- The error taxonomy of the service (HTTP error details in the source). -/
inductive Err where
  | unauthenticated
  | invalidSession
  | noBusinessSelected
  | notFound
  | invalidKind
  | invalidAmount
  | duplicateEmail
deriving DecidableEq, Repr

/-- A timestamp.  `day` is days since an epoch whose day 0 is a Monday,
`sec` the second within the day, `ym` the Gregorian year-month index. -/
structure Fecha where
  day : Nat
  sec : Nat
  ym : Nat
deriving DecidableEq, Repr

/-- Seconds in one day. -/
def secPerDay : Nat := 86400

/-- A timestamp as a number of seconds; SQL timestamp comparison is
comparison of these values. -/
def Fecha.toSec (f : Fecha) : Nat := f.day * secPerDay + f.sec

/-- Row of the `contactos` table. -/
structure Contacto where
  id : Nat
  negocio_id : Nat
  tipo : String
  nombre : String
  telefono : String
  deuda : Rat
  ultimo_movimiento : Option Fecha
  creado_en : Fecha
deriving DecidableEq, Repr

/-- Row of the `transacciones` table. -/
structure Transaccion where
  id : Nat
  contacto_id : Nat
  tipo : String
  monto : Rat
  nota : String
  fecha : Fecha
deriving DecidableEq, Repr

/-- Row of the `ventas` table. -/
structure Venta where
  id : Nat
  negocio_id : Nat
  descripcion : String
  monto : Rat
  fecha : Fecha
deriving DecidableEq, Repr

/-- The store state: the three ledger tables, their auto-increment
counters, and the current clock.  (Users, businesses and sessions are the
session layer, external to the claims; the active business id appears as a
parameter `nid` of each operation.) -/
structure DB where
  contactos : List Contacto
  transacciones : List Transaccion
  ventas : List Venta
  nextContactoId : Nat
  nextTransaccionId : Nat
  nextVentaId : Nat
  now : Fecha
deriving DecidableEq, Repr

/-- Request body `ContactoCreate`. -/
structure ContactoCreate where
  nombre : String
  telefono : String
  deuda_inicial : Option Rat
  tipo : String
deriving DecidableEq, Repr

/-- Request body `ContactoUpdate` (all fields optional). -/
structure ContactoUpdate where
  nombre : Option String
  telefono : Option String
  deuda : Option Rat
deriving DecidableEq, Repr

/-- Request body `TransaccionCreate`. -/
structure TransaccionCreate where
  tipo : String
  monto : Rat
  nota : String
deriving DecidableEq, Repr

/-- Request body `VentaCreate`. -/
structure VentaCreate where
  descripcion : String
  monto : Rat
deriving DecidableEq, Repr

/-- Python `data.deuda_inicial or 0`: `None` gives `0`, and the float `0`
is falsy so also gives `0`; any other value passes through. -/
def deudaIni : Option Rat → Rat
  | none => 0
  | some d => d

/-- SQLite `LIKE` folds the 26 ASCII letters only; lower-case one char. -/
def lowerChar (c : Char) : Char :=
  if 65 ≤ c.toNat ∧ c.toNat ≤ 90 then Char.ofNat (c.toNat + 32) else c

/-- Is `needle` a contiguous substring of `hay`? -/
def substrOf (needle : List Char) : List Char → Bool
  | [] => needle.isPrefixOf []
  | c :: rest => needle.isPrefixOf (c :: rest) || substrOf needle rest

/-- `col LIKE '%pat%'` on the given backend: PostgreSQL `LIKE` compares
case-sensitively, SQLite `LIKE` is case-insensitive for ASCII letters. -/
def likeContains (pg : Bool) (pat s : String) : Bool :=
  if pg then substrOf pat.toList s.toList
  else substrOf (pat.toList.map lowerChar) (s.toList.map lowerChar)

/-- Lexicographic comparison of character lists by code point: the binary
collation SQL uses on text columns. -/
def strLeb : List Char → List Char → Bool
  | [], _ => true
  | _ :: _, [] => false
  | a :: as, b :: bs =>
    if a.toNat < b.toNat then true
    else if b.toNat < a.toNat then false
    else strLeb as bs

/-- `ORDER BY deuda DESC, nombre` — balance descending, ties broken by
name ascending (binary collation on the name). -/
def ordC (a b : Contacto) : Prop :=
  b.deuda < a.deuda ∨
    (a.deuda = b.deuda ∧ strLeb a.nombre.toList b.nombre.toList = true)

instance : DecidableRel ordC := fun _a _b =>
  inferInstanceAs (Decidable (_ ∨ _))

/-- `ORDER BY fecha DESC` on sales. -/
def ordV (a b : Venta) : Prop := b.fecha.toSec ≤ a.fecha.toSec

instance : DecidableRel ordV := fun _a _b =>
  inferInstanceAs (Decidable (_ ≤ _))

/-- `ORDER BY fecha DESC` on transactions. -/
def ordT (a b : Transaccion) : Prop := b.fecha.toSec ≤ a.fecha.toSec

instance : DecidableRel ordT := fun _a _b =>
  inferInstanceAs (Decidable (_ ≤ _))

/-- `GET /contactos` after session resolution: rows of the active business
with the requested `tipo`, optionally restricted by the substring search on
name or phone, ordered by `deuda DESC, nombre`. -/
def get_contactos (pg : Bool) (db : DB) (nid : Nat) (tipo : String)
    (buscar : Option String) : List Contacto :=
  List.insertionSort ordC (db.contactos.filter (fun c =>
    c.negocio_id == nid && c.tipo == tipo &&
      match buscar with
      | none => true
      | some b => likeContains pg b c.nombre || likeContains pg b c.telefono))

/-- `POST /contactos`: validate `tipo`; insert the contact with
`deuda = deuda_inicial or 0`; if a strictly positive initial debt was
given, insert the matching seed transaction and stamp
`ultimo_movimiento = now`; finally return the row re-read by id. -/
def crear_contacto (db : DB) (nid : Nat) (data : ContactoCreate) :
    DB × Except Err Contacto :=
  if data.tipo ≠ "clientes" ∧ data.tipo ≠ "proveedores" then
    (db, .error .invalidKind)
  else
    let cid := db.nextContactoId
    let c0 : Contacto :=
      ⟨cid, nid, data.tipo, data.nombre, data.telefono,
        deudaIni data.deuda_inicial, none, db.now⟩
    let db1 : DB :=
      { db with contactos := db.contactos ++ [c0], nextContactoId := cid + 1 }
    let db2 : DB :=
      match data.deuda_inicial with
      | some d =>
        if 0 < d then
          { db1 with
            transacciones := db1.transacciones ++
              [⟨db.nextTransaccionId, cid, "deuda", d, "Deuda inicial", db.now⟩],
            nextTransaccionId := db.nextTransaccionId + 1,
            contactos := db1.contactos.map (fun x =>
              if x.id == cid then { x with ultimo_movimiento := some db.now } else x) }
        else db1
      | none => db1
    match db2.contactos.find? (fun x => x.id == cid) with
    | some c => (db2, .ok c)
    | none => (db2, .error .notFound)

/-- The row update `UPDATE contactos SET nombre=?, telefono=?, deuda=?
WHERE id=?` as a per-row function. -/
def updCampos (cid : Nat) (n t : String) (d : Rat) (x : Contacto) : Contacto :=
  if x.id == cid then { x with nombre := n, telefono := t, deuda := d } else x

/-- `PUT /contactos/cid`: tenant-checked lookup, then a partial update of
name/phone/balance (omitted fields keep the stored value — Python
`data.f if data.f is not None else c["f"]`), then return the row re-read
by id. -/
def editar_contacto (db : DB) (nid cid : Nat) (data : ContactoUpdate) :
    DB × Except Err Contacto :=
  match db.contactos.find? (fun c => c.id == cid && c.negocio_id == nid) with
  | none => (db, .error .notFound)
  | some c =>
    let contactos' := db.contactos.map (updCampos cid (data.nombre.getD c.nombre)
      (data.telefono.getD c.telefono) (data.deuda.getD c.deuda))
    let db' : DB := { db with contactos := contactos' }
    match contactos'.find? (fun x => x.id == cid) with
    | some updated => (db', .ok updated)
    | none => (db', .error .notFound)

/-- `DELETE /contactos/cid`: tenant-checked lookup, then delete the row;
the `ON DELETE CASCADE` foreign key removes the contact's transactions. -/
def eliminar_contacto (db : DB) (nid cid : Nat) : DB × Except Err Unit :=
  match db.contactos.find? (fun c => c.id == cid && c.negocio_id == nid) with
  | none => (db, .error .notFound)
  | some _ =>
    ({ db with
        contactos := db.contactos.filter (fun c => c.id != cid),
        transacciones := db.transacciones.filter (fun t => t.contacto_id != cid) },
      .ok ())

/-- `GET /contactos/cid/transacciones`: tenant-checked lookup of the
contact, then its transactions ordered by `fecha DESC`. -/
def get_transacciones (db : DB) (nid cid : Nat) : Except Err (List Transaccion) :=
  match db.contactos.find? (fun c => c.id == cid && c.negocio_id == nid) with
  | none => .error .notFound
  | some _ =>
    .ok (List.insertionSort ordT
      (db.transacciones.filter (fun t => t.contacto_id == cid)))

/-- `POST /contactos/cid/transacciones`: validate kind then amount, do the
tenant-checked lookup, insert the transaction, recompute the balance
(`deuda + monto` for a debt, `max(0, deuda - monto)` for a payment), stamp
`ultimo_movimiento = now`, and return the new balance. -/
def crear_transaccion (db : DB) (nid cid : Nat) (data : TransaccionCreate) :
    DB × Except Err Rat :=
  if data.tipo ≠ "deuda" ∧ data.tipo ≠ "pago" then
    (db, .error .invalidKind)
  else if data.monto ≤ 0 then
    (db, .error .invalidAmount)
  else
    match db.contactos.find? (fun c => c.id == cid && c.negocio_id == nid) with
    | none => (db, .error .notFound)
    | some c =>
      let nueva : Rat :=
        if data.tipo = "deuda" then c.deuda + data.monto
        else max 0 (c.deuda - data.monto)
      ({ db with
          transacciones := db.transacciones ++
            [⟨db.nextTransaccionId, cid, data.tipo, data.monto, data.nota, db.now⟩],
          nextTransaccionId := db.nextTransaccionId + 1,
          contactos := db.contactos.map (fun x =>
            if x.id == cid then
              { x with deuda := nueva, ultimo_movimiento := some db.now }
            else x) },
        .ok nueva)

/-- `get_periodo_filter` as a predicate on a sale timestamp given the
clock `now`.  PostgreSQL: `hoy` is `fecha >= NOW()::date`, `semana` is
`fecha >= date_trunc('week', NOW())` (Monday-start calendar week), `mes`
is `fecha >= date_trunc('month', NOW())` (expressed through the carried
year-month index).  SQLite: `hoy` is `date(fecha) = date('now')`,
`semana` is `fecha >= date('now','-6 days')` (midnight six days ago),
`mes` is equality of `strftime('%Y-%m', ...)`.  Any other keyword means
no filter. -/
def periodoFilter (pg : Bool) (periodo : String) (now fecha : Fecha) : Bool :=
  if pg then
    if periodo = "hoy" then decide (now.day * secPerDay ≤ fecha.toSec)
    else if periodo = "semana" then
      decide ((now.day - now.day % 7) * secPerDay ≤ fecha.toSec)
    else if periodo = "mes" then decide (now.ym ≤ fecha.ym)
    else true
  else
    if periodo = "hoy" then decide (fecha.day = now.day)
    else if periodo = "semana" then
      decide ((now.day - 6) * secPerDay ≤ fecha.toSec)
    else if periodo = "mes" then decide (fecha.ym = now.ym)
    else true

/-- `GET /ventas`: rows of the active business passing the period filter
and the optional substring search on the description, ordered by
`fecha DESC`. -/
def get_ventas (pg : Bool) (db : DB) (nid : Nat) (periodo : String)
    (buscar : Option String) : List Venta :=
  List.insertionSort ordV (db.ventas.filter (fun v =>
    v.negocio_id == nid && periodoFilter pg periodo db.now v.fecha &&
      match buscar with
      | none => true
      | some b => likeContains pg b v.descripcion))

/-- `GET /ventas/resumen`: `SUM(monto)` and `COUNT(*)` over the rows of the
active business passing the period filter. -/
def get_ventas_resumen (pg : Bool) (db : DB) (nid : Nat) (periodo : String) :
    Rat × Nat :=
  let l := db.ventas.filter (fun v =>
    v.negocio_id == nid && periodoFilter pg periodo db.now v.fecha)
  (l.foldl (fun s v => s + v.monto) 0, l.length)

/-- `POST /ventas`: validate the amount, insert the sale, return the row
re-read by id. -/
def crear_venta (db : DB) (nid : Nat) (data : VentaCreate) :
    DB × Except Err Venta :=
  if data.monto ≤ 0 then (db, .error .invalidAmount)
  else
    let vid := db.nextVentaId
    let v : Venta := ⟨vid, nid, data.descripcion, data.monto, db.now⟩
    let db' : DB :=
      { db with ventas := db.ventas ++ [v], nextVentaId := vid + 1 }
    match db'.ventas.find? (fun x => x.id == vid) with
    | some row => (db', .ok row)
    | none => (db', .error .notFound)

/-- `DELETE /ventas/vid`: tenant-checked lookup, then delete the row. -/
def eliminar_venta (db : DB) (nid vid : Nat) : DB × Except Err Unit :=
  match db.ventas.find? (fun v => v.id == vid && v.negocio_id == nid) with
  | none => (db, .error .notFound)
  | some _ =>
    ({ db with ventas := db.ventas.filter (fun v => v.id != vid) }, .ok ())

/-- One step of the balance fold of spec §3: a debt adds its amount, a
payment subtracts it and floors at zero. -/
def foldStep (b : Rat) (t : Transaccion) : Rat :=
  if t.tipo = "deuda" then b + t.monto else max 0 (b - t.monto)

/-- The transactions of contact `cid`, in creation order. -/
def txsOf (db : DB) (cid : Nat) : List Transaccion :=
  db.transacciones.filter (fun t => t.contacto_id == cid)

/-- Left-fold of the §3 step over a transaction list, from balance 0. -/
def foldBal (l : List Transaccion) : Rat := l.foldl foldStep 0

/-- Apply a sequence of transaction-create requests, each aimed at a
business id and a contact id, threading the store state (a failed request
leaves the state unchanged, as in the source). -/
def applyTxs (reqs : List (Nat × Nat × TransaccionCreate)) (db : DB) : DB :=
  reqs.foldl (fun s r => (crear_transaccion s r.1 r.2.1 r.2.2).1) db

/-- Store well-formedness: the auto-increment counters bound every id in
use, and contact ids and sale ids are pairwise distinct (primary keys). -/
def WF (db : DB) : Prop :=
  (∀ c ∈ db.contactos, c.id < db.nextContactoId) ∧
  (∀ t ∈ db.transacciones, t.contacto_id < db.nextContactoId) ∧
  (∀ v ∈ db.ventas, v.id < db.nextVentaId) ∧
  db.contactos.Pairwise (fun a b => a.id ≠ b.id) ∧
  db.ventas.Pairwise (fun a b => a.id ≠ b.id)

instance (db : DB) : Decidable (WF db) :=
  inferInstanceAs (Decidable (_ ∧ _))

/-! ## Generic list helpers -/

/-- In a list whose `key`s are pairwise distinct, `find?` with a predicate
that pins down the key returns the (unique) member satisfying it. -/
theorem find?_unique_key {α : Type} (p : α → Bool) (key : α → Nat) :
    ∀ (l : List α), l.Pairwise (fun a b => key a ≠ key b) →
      ∀ c, c ∈ l → p c = true → (∀ x, p x = true → key x = key c) →
        l.find? p = some c
  | [], _, c, hc, _, _ => absurd hc (List.not_mem_nil c)
  | a :: t, hpw, c, hc, hp, hkey => by
    rcases List.pairwise_cons.mp hpw with ⟨ha, ht⟩
    rcases List.mem_cons.mp hc with rfl | hct
    · simp [List.find?_cons_of_pos, hp]
    · cases hpa : p a with
      | true =>
        exact absurd (hkey a hpa) (ha c hct)
      | false =>
        rw [List.find?_cons_of_neg _ (by simp [hpa])]
        exact find?_unique_key p key t ht c hct hp hkey

/-- Two members of a list with pairwise-distinct keys that share a key are
the same row. -/
theorem mem_eq_of_unique_key {α : Type} (key : α → Nat) :
    ∀ (l : List α), l.Pairwise (fun a b => key a ≠ key b) →
      ∀ x y, x ∈ l → y ∈ l → key x = key y → x = y
  | [], _, x, _, hx, _, _ => absurd hx (List.not_mem_nil x)
  | a :: t, hpw, x, y, hx, hy, hxy => by
    rcases List.pairwise_cons.mp hpw with ⟨ha, ht⟩
    rcases List.mem_cons.mp hx with rfl | hxt
    · rcases List.mem_cons.mp hy with rfl | hyt
      · rfl
      · exact absurd hxy (ha y hyt)
    · rcases List.mem_cons.mp hy with rfl | hyt
      · exact absurd hxy.symm (ha x hxt)
      · exact mem_eq_of_unique_key key t ht x y hxt hyt hxy

/-- `find?` skips a prefix on which the predicate is everywhere false. -/
theorem find?_append_of_none {α : Type} {p : α → Bool} :
    ∀ {l₁ : List α} (l₂ : List α), (∀ x ∈ l₁, p x = false) →
      (l₁ ++ l₂).find? p = l₂.find? p
  | [], _, _ => rfl
  | a :: t, l₂, h => by
    rw [List.cons_append, List.find?_cons_of_neg _ (by simp [h a (List.mem_cons_self a t)])]
    exact find?_append_of_none l₂ (fun x hx => h x (List.mem_cons_of_mem a hx))

/-- Mapping an id-preserving function keeps contact ids pairwise distinct. -/
theorem pairwise_ids_map {l : List Contacto} (f : Contacto → Contacto)
    (hf : ∀ x, (f x).id = x.id)
    (h : l.Pairwise (fun a b => a.id ≠ b.id)) :
    (l.map f).Pairwise (fun a b => a.id ≠ b.id) :=
  List.Pairwise.map f (fun a b hab => by rw [hf a, hf b]; exact hab) h

/-! ## Totality and transitivity of the SQL orderings -/

/-- `strLeb` on a `cons` pair, unfolded to its arithmetic content. -/
theorem strLeb_cons (a b : Char) (as bs : List Char) :
    strLeb (a :: as) (b :: bs) = true ↔
      a.toNat < b.toNat ∨ (a.toNat = b.toNat ∧ strLeb as bs = true) := by
  by_cases h1 : a.toNat < b.toNat
  · simp [strLeb, h1]
  · by_cases h2 : b.toNat < a.toNat
    · have hne : a.toNat ≠ b.toNat := by omega
      simp [strLeb, h1, h2, hne]
    · have heq : a.toNat = b.toNat := by omega
      simp [strLeb, h1, h2, heq]

theorem strLeb_total : ∀ (a b : List Char), strLeb a b = true ∨ strLeb b a = true
  | [], _ => Or.inl rfl
  | _ :: _, [] => Or.inr rfl
  | a :: as, b :: bs => by
    rcases Nat.lt_trichotomy a.toNat b.toNat with h | h | h
    · exact Or.inl ((strLeb_cons a b as bs).mpr (Or.inl h))
    · rcases strLeb_total as bs with hs | hs
      · exact Or.inl ((strLeb_cons a b as bs).mpr (Or.inr ⟨h, hs⟩))
      · exact Or.inr ((strLeb_cons b a bs as).mpr (Or.inr ⟨h.symm, hs⟩))
    · exact Or.inr ((strLeb_cons b a bs as).mpr (Or.inl h))

theorem strLeb_trans :
    ∀ (a b c : List Char), strLeb a b = true → strLeb b c = true →
      strLeb a c = true
  | [], _, _, _, _ => rfl
  | _ :: _, [], _, h, _ => by cases h
  | _ :: _, _ :: _, [], _, h => by cases h
  | a :: as, b :: bs, c :: cs, h1, h2 => by
    rcases (strLeb_cons a b as bs).mp h1 with hab | ⟨hab, hab'⟩ <;>
      rcases (strLeb_cons b c bs cs).mp h2 with hbc | ⟨hbc, hbc'⟩
    · exact (strLeb_cons a c as cs).mpr (Or.inl (Nat.lt_trans hab hbc))
    · exact (strLeb_cons a c as cs).mpr (Or.inl (hbc ▸ hab))
    · exact (strLeb_cons a c as cs).mpr (Or.inl (hab ▸ hbc))
    · exact (strLeb_cons a c as cs).mpr
        (Or.inr ⟨hab.trans hbc, strLeb_trans as bs cs hab' hbc'⟩)

instance : IsTotal Contacto ordC :=
  ⟨fun a b => by
    unfold ordC
    rcases lt_trichotomy a.deuda b.deuda with h | h | h
    · exact Or.inr (Or.inl h)
    · rcases strLeb_total a.nombre.toList b.nombre.toList with hs | hs
      · exact Or.inl (Or.inr ⟨h, hs⟩)
      · exact Or.inr (Or.inr ⟨h.symm, hs⟩)
    · exact Or.inl (Or.inl h)⟩

instance : IsTrans Contacto ordC :=
  ⟨fun a b c hab hbc => by
    unfold ordC at *
    rcases hab with hab | ⟨hab, hab'⟩ <;> rcases hbc with hbc | ⟨hbc, hbc'⟩
    · exact Or.inl (lt_trans hbc hab)
    · exact Or.inl (by rw [← hbc]; exact hab)
    · exact Or.inl (by rw [hab]; exact hbc)
    · exact Or.inr ⟨hab.trans hbc, strLeb_trans _ _ _ hab' hbc'⟩⟩

instance : IsTotal Venta ordV :=
  ⟨fun a b => Nat.le_total b.fecha.toSec a.fecha.toSec⟩

instance : IsTrans Venta ordV :=
  ⟨fun _a _b _c hab hbc => Nat.le_trans hbc hab⟩

instance : IsTotal Transaccion ordT :=
  ⟨fun a b => Nat.le_total b.fecha.toSec a.fecha.toSec⟩

instance : IsTrans Transaccion ordT :=
  ⟨fun _a _b _c hab hbc => Nat.le_trans hbc hab⟩

/-! ## Shape lemmas for `crear_transaccion` -/

/-- The contact-row updater applied by a successful transaction create. -/
def updDeuda (cid : Nat) (nueva : Rat) (mov : Fecha) (x : Contacto) : Contacto :=
  if x.id == cid then { x with deuda := nueva, ultimo_movimiento := some mov } else x

theorem updDeuda_id (cid : Nat) (nueva : Rat) (mov : Fecha) (x : Contacto) :
    (updDeuda cid nueva mov x).id = x.id := by
  unfold updDeuda; split <;> rfl

theorem crear_transaccion_ok (db : DB) (nid cid : Nat) (r : TransaccionCreate)
    (c : Contacto)
    (ht : r.tipo = "deuda" ∨ r.tipo = "pago") (hm : 0 < r.monto)
    (hfind : db.contactos.find? (fun x => x.id == cid && x.negocio_id == nid) = some c) :
    crear_transaccion db nid cid r =
      ({ db with
          transacciones := db.transacciones ++
            [⟨db.nextTransaccionId, cid, r.tipo, r.monto, r.nota, db.now⟩],
          nextTransaccionId := db.nextTransaccionId + 1,
          contactos := db.contactos.map (updDeuda cid
            (if r.tipo = "deuda" then c.deuda + r.monto
             else max 0 (c.deuda - r.monto)) db.now) },
        .ok (if r.tipo = "deuda" then c.deuda + r.monto
             else max 0 (c.deuda - r.monto))) := by
  have h1 : ¬(r.tipo ≠ "deuda" ∧ r.tipo ≠ "pago") := by
    rcases ht with h | h <;> simp [h]
  have h2 : ¬(r.monto ≤ 0) := not_le.mpr hm
  simp only [crear_transaccion, if_neg h1, if_neg h2, hfind]
  rfl

theorem crear_transaccion_badKind (db : DB) (nid cid : Nat) (r : TransaccionCreate)
    (h : r.tipo ≠ "deuda" ∧ r.tipo ≠ "pago") :
    crear_transaccion db nid cid r = (db, .error .invalidKind) := by
  simp only [crear_transaccion, if_pos h]

theorem crear_transaccion_badAmount (db : DB) (nid cid : Nat) (r : TransaccionCreate)
    (ht : r.tipo = "deuda" ∨ r.tipo = "pago") (hm : r.monto ≤ 0) :
    crear_transaccion db nid cid r = (db, .error .invalidAmount) := by
  have h1 : ¬(r.tipo ≠ "deuda" ∧ r.tipo ≠ "pago") := by
    rcases ht with h | h <;> simp [h]
  simp only [crear_transaccion, if_neg h1, if_pos hm]

theorem crear_transaccion_notFound (db : DB) (nid cid : Nat) (r : TransaccionCreate)
    (ht : r.tipo = "deuda" ∨ r.tipo = "pago") (hm : 0 < r.monto)
    (hfind : db.contactos.find? (fun x => x.id == cid && x.negocio_id == nid) = none) :
    crear_transaccion db nid cid r = (db, .error .notFound) := by
  have h1 : ¬(r.tipo ≠ "deuda" ∧ r.tipo ≠ "pago") := by
    rcases ht with h | h <;> simp [h]
  have h2 : ¬(r.monto ≤ 0) := not_le.mpr hm
  simp only [crear_transaccion, if_neg h1, if_neg h2, hfind]

/-- Whatever the request, a transaction create either succeeds with the
shape above or leaves the store untouched. -/
theorem crear_transaccion_cases (db : DB) (nid cid : Nat) (r : TransaccionCreate) :
    (crear_transaccion db nid cid r).1 = db ∨
      ((r.tipo = "deuda" ∨ r.tipo = "pago") ∧ 0 < r.monto ∧
        ∃ c, db.contactos.find? (fun x => x.id == cid && x.negocio_id == nid) = some c ∧
          crear_transaccion db nid cid r =
            ({ db with
                transacciones := db.transacciones ++
                  [⟨db.nextTransaccionId, cid, r.tipo, r.monto, r.nota, db.now⟩],
                nextTransaccionId := db.nextTransaccionId + 1,
                contactos := db.contactos.map (updDeuda cid
                  (if r.tipo = "deuda" then c.deuda + r.monto
                   else max 0 (c.deuda - r.monto)) db.now) },
              .ok (if r.tipo = "deuda" then c.deuda + r.monto
                   else max 0 (c.deuda - r.monto)))) := by
  by_cases h1 : r.tipo ≠ "deuda" ∧ r.tipo ≠ "pago"
  · exact Or.inl (by rw [crear_transaccion_badKind db nid cid r h1])
  · have ht : r.tipo = "deuda" ∨ r.tipo = "pago" := by
      by_contra h
      push_neg at h
      exact h1 h
    by_cases h2 : r.monto ≤ 0
    · exact Or.inl (by rw [crear_transaccion_badAmount db nid cid r ht h2])
    · have hm : 0 < r.monto := not_le.mp h2
      cases hfind : db.contactos.find? (fun x => x.id == cid && x.negocio_id == nid) with
      | none => exact Or.inl (by rw [crear_transaccion_notFound db nid cid r ht hm hfind])
      | some c =>
        exact Or.inr ⟨ht, hm, c, rfl,
          crear_transaccion_ok db nid cid r c ht hm hfind⟩

/-! ## Shape lemmas for `crear_contacto` -/

theorem crear_contacto_pos (db : DB) (nid : Nat) (data : ContactoCreate) (d : Rat)
    (hwf : WF db) (ht : data.tipo = "clientes" ∨ data.tipo = "proveedores")
    (hd : data.deuda_inicial = some d) (hdpos : 0 < d) :
    crear_contacto db nid data =
      ({ db with
          contactos := db.contactos ++
            [⟨db.nextContactoId, nid, data.tipo, data.nombre, data.telefono, d,
              some db.now, db.now⟩],
          transacciones := db.transacciones ++
            [⟨db.nextTransaccionId, db.nextContactoId, "deuda", d,
              "Deuda inicial", db.now⟩],
          nextContactoId := db.nextContactoId + 1,
          nextTransaccionId := db.nextTransaccionId + 1 },
        .ok ⟨db.nextContactoId, nid, data.tipo, data.nombre, data.telefono, d,
          some db.now, db.now⟩) := by
  have h1 : ¬(data.tipo ≠ "clientes" ∧ data.tipo ≠ "proveedores") := by
    rcases ht with h | h <;> simp [h]
  have hids : ∀ x ∈ db.contactos, (x.id == db.nextContactoId) = false := by
    intro x hx
    have := hwf.1 x hx
    simp only [beq_eq_false_iff_ne, ne_eq]
    omega
  have hmap :
      db.contactos.map (fun x =>
          if x.id == db.nextContactoId then
            { x with ultimo_movimiento := some db.now }
          else x) =
        db.contactos :=
    (List.map_congr_left (fun x hx => by simp [hids x hx])).trans
      (List.map_id db.contactos)
  have hfind :
      (db.contactos ++
          [(⟨db.nextContactoId, nid, data.tipo, data.nombre, data.telefono, d,
              some db.now, db.now⟩ : Contacto)]).find?
          (fun x => x.id == db.nextContactoId) =
        some ⟨db.nextContactoId, nid, data.tipo, data.nombre, data.telefono, d,
          some db.now, db.now⟩ := by
    rw [find?_append_of_none _ hids]
    simp [List.find?]
  simp only [crear_contacto, if_neg h1, hd, if_pos hdpos, deudaIni,
    List.map_append, hmap, List.map_cons, List.map_nil, beq_self_eq_true,
    if_pos, hfind]

theorem crear_contacto_zero (db : DB) (nid : Nat) (data : ContactoCreate)
    (hwf : WF db) (ht : data.tipo = "clientes" ∨ data.tipo = "proveedores")
    (hd : data.deuda_inicial = none ∨ data.deuda_inicial = some 0) :
    crear_contacto db nid data =
      ({ db with
          contactos := db.contactos ++
            [⟨db.nextContactoId, nid, data.tipo, data.nombre, data.telefono, 0,
              none, db.now⟩],
          nextContactoId := db.nextContactoId + 1 },
        .ok ⟨db.nextContactoId, nid, data.tipo, data.nombre, data.telefono, 0,
          none, db.now⟩) := by
  have h1 : ¬(data.tipo ≠ "clientes" ∧ data.tipo ≠ "proveedores") := by
    rcases ht with h | h <;> simp [h]
  have hids : ∀ x ∈ db.contactos, (x.id == db.nextContactoId) = false := by
    intro x hx
    have := hwf.1 x hx
    simp only [beq_eq_false_iff_ne, ne_eq]
    omega
  have hfind :
      (db.contactos ++
          [(⟨db.nextContactoId, nid, data.tipo, data.nombre, data.telefono, 0,
              none, db.now⟩ : Contacto)]).find?
          (fun x => x.id == db.nextContactoId) =
        some ⟨db.nextContactoId, nid, data.tipo, data.nombre, data.telefono, 0,
          none, db.now⟩ := by
    rw [find?_append_of_none _ hids]
    simp [List.find?]
  rcases hd with hd | hd <;>
    simp only [crear_contacto, if_neg h1, hd, deudaIni, lt_self_iff_false,
      if_false, hfind]

/-! ## The balance fold invariant -/

/-- Invariant carried along a run: contact ids are pairwise distinct and
the row with id `cid` (if present) stores exactly the left-fold of its
transactions in creation order, a non-negative value. -/
def BalInv (cid : Nat) (db : DB) : Prop :=
  db.contactos.Pairwise (fun a b => a.id ≠ b.id) ∧
  ∀ c ∈ db.contactos, c.id = cid →
    c.deuda = foldBal (txsOf db cid) ∧ 0 ≤ c.deuda

theorem applyTxs_cons (r : Nat × Nat × TransaccionCreate)
    (rs : List (Nat × Nat × TransaccionCreate)) (db : DB) :
    applyTxs (r :: rs) db = applyTxs rs (crear_transaccion db r.1 r.2.1 r.2.2).1 :=
  rfl

/-- A transaction create aimed at any business and any contact preserves
the invariant for `cid`. -/
theorem balInv_step (cid : Nat) (db : DB) (nid' cid' : Nat) (r : TransaccionCreate)
    (h : BalInv cid db) : BalInv cid (crear_transaccion db nid' cid' r).1 := by
  rcases crear_transaccion_cases db nid' cid' r with heq | ⟨ht, hm, c0, hfind, heq⟩
  · rw [heq]; exact h
  · have hc0p := List.find?_some hfind
    have hc0m := List.mem_of_find?_eq_some hfind
    have hc0id : c0.id = cid' := by
      simp only [Bool.and_eq_true, beq_iff_eq] at hc0p
      exact hc0p.1
    rw [heq]
    refine ⟨pairwise_ids_map _ (updDeuda_id _ _ _) h.1, ?_⟩
    intro c' hc' hid
    rcases List.mem_map.mp hc' with ⟨x, hx, hfx⟩
    have hxid : x.id = cid := by rw [← hid, ← hfx, updDeuda_id]
    by_cases hcc : cid' = cid
    · subst hcc
      have hc0inv := h.2 c0 hc0m hc0id
      have hxc0 : x = c0 := mem_eq_of_unique_key (fun y => y.id) db.contactos h.1
        x c0 hx hc0m (by show x.id = c0.id; rw [hxid, hc0id])
      have hceq : c' = { x with
          deuda := if r.tipo = "deuda" then c0.deuda + r.monto
            else max 0 (c0.deuda - r.monto),
          ultimo_movimiento := some db.now } := by
        rw [← hfx]
        simp [updDeuda, hxid]
      have htxs :
          txsOf ({ db with
            transacciones := db.transacciones ++
              [⟨db.nextTransaccionId, cid', r.tipo, r.monto, r.nota, db.now⟩],
            nextTransaccionId := db.nextTransaccionId + 1,
            contactos := db.contactos.map (updDeuda cid'
              (if r.tipo = "deuda" then c0.deuda + r.monto
               else max 0 (c0.deuda - r.monto)) db.now) }) cid' =
            txsOf db cid' ++
              [⟨db.nextTransaccionId, cid', r.tipo, r.monto, r.nota, db.now⟩] := by
        simp [txsOf, List.filter_append]
      rw [htxs]
      have hfold :
          foldBal (txsOf db cid' ++
              [⟨db.nextTransaccionId, cid', r.tipo, r.monto, r.nota, db.now⟩]) =
            foldStep (foldBal (txsOf db cid'))
              ⟨db.nextTransaccionId, cid', r.tipo, r.monto, r.nota, db.now⟩ := by
        simp [foldBal, List.foldl_append]
      rw [hfold]
      constructor
      · rw [hceq]
        simp only [foldStep, ← hc0inv.1]
      · rw [hceq]
        by_cases hdt : r.tipo = "deuda"
        · simp only [hdt, if_true]
          exact add_nonneg hc0inv.2 (le_of_lt hm)
        · simp only [hdt, if_false]
          exact le_max_left 0 _
    · have hne : (x.id == cid') = false := by
        rw [hxid]
        simp only [beq_eq_false_iff_ne, ne_eq]
        exact fun hh => hcc hh.symm
      have hcx : c' = x := by
        rw [← hfx]
        simp [updDeuda, hne]
      have htxs :
          txsOf ({ db with
            transacciones := db.transacciones ++
              [⟨db.nextTransaccionId, cid', r.tipo, r.monto, r.nota, db.now⟩],
            nextTransaccionId := db.nextTransaccionId + 1,
            contactos := db.contactos.map (updDeuda cid'
              (if r.tipo = "deuda" then c0.deuda + r.monto
               else max 0 (c0.deuda - r.monto)) db.now) }) cid =
            txsOf db cid := by
        simp [txsOf, List.filter_append, hcc]
      rw [htxs, hcx]
      exact h.2 x hx hxid

theorem balInv_applyTxs (cid : Nat) (reqs : List (Nat × Nat × TransaccionCreate)) :
    ∀ db, BalInv cid db → BalInv cid (applyTxs reqs db) := by
  induction reqs with
  | nil => exact fun _db h => h
  | cons r rs ih =>
    intro db h
    rw [applyTxs_cons]
    exact ih _ (balInv_step cid db r.1 r.2.1 r.2.2 h)

/-- Contact creation with a non-negative (or absent) seed debt establishes
the invariant for the new contact. -/
theorem balInv_after_crear (db : DB) (nid : Nat) (data : ContactoCreate) (c : Contacto)
    (hwf : WF db) (ht : data.tipo = "clientes" ∨ data.tipo = "proveedores")
    (hd : data.deuda_inicial = none ∨ ∃ d, data.deuda_inicial = some d ∧ 0 ≤ d)
    (hok : (crear_contacto db nid data).2 = .ok c) :
    BalInv c.id (crear_contacto db nid data).1 := by
  have htx0 : txsOf db db.nextContactoId = [] := by
    rw [txsOf, List.filter_eq_nil_iff]
    intro t htm
    have := hwf.2.1 t htm
    simp only [beq_iff_eq]
    omega
  have hzero : ∀ dz : Rat,
      (data.deuda_inicial = none ∨ data.deuda_inicial = some 0) →
      BalInv c.id (crear_contacto db nid data).1 := by
    intro _dz hdz
    have heq := crear_contacto_zero db nid data hwf ht hdz
    have hc : c = ⟨db.nextContactoId, nid, data.tipo, data.nombre, data.telefono,
        0, none, db.now⟩ := by
      rw [heq] at hok
      exact (Except.ok.injEq _ _).mp hok.symm
    rw [heq]
    constructor
    · rw [List.pairwise_append]
      refine ⟨hwf.2.2.2.1, List.pairwise_singleton _ _, ?_⟩
      intro a ha b hb
      have hb' : b = ⟨db.nextContactoId, nid, data.tipo, data.nombre,
          data.telefono, 0, none, db.now⟩ := by simpa using hb
      have := hwf.1 a ha
      rw [hb']
      simp only [ne_eq]
      omega
    · intro c' hc' hid
      rcases List.mem_append.mp hc' with hmem | hmem
      · have := hwf.1 c' hmem
        rw [hc] at hid
        simp only at hid
        omega
      · have hc'eq : c' = ⟨db.nextContactoId, nid, data.tipo, data.nombre,
            data.telefono, 0, none, db.now⟩ := by simpa using hmem
        have : txsOf ({ db with
            contactos := db.contactos ++
              [⟨db.nextContactoId, nid, data.tipo, data.nombre, data.telefono,
                0, none, db.now⟩],
            nextContactoId := db.nextContactoId + 1 }) c.id = [] := by
          rw [hc]
          simpa [txsOf] using htx0
        rw [this, hc'eq]
        simp [foldBal]
  rcases hd with hd | ⟨d, hd, hdge⟩
  · exact hzero 0 (Or.inl hd)
  · rcases eq_or_lt_of_le hdge with hd0 | hdpos
    · exact hzero 0 (Or.inr (by rw [hd, ← hd0]))
    · have heq := crear_contacto_pos db nid data d hwf ht hd hdpos
      have hc : c = ⟨db.nextContactoId, nid, data.tipo, data.nombre,
          data.telefono, d, some db.now, db.now⟩ := by
        rw [heq] at hok
        exact (Except.ok.injEq _ _).mp hok.symm
      rw [heq]
      constructor
      · rw [List.pairwise_append]
        refine ⟨hwf.2.2.2.1, List.pairwise_singleton _ _, ?_⟩
        intro a ha b hb
        have hb' : b = ⟨db.nextContactoId, nid, data.tipo, data.nombre,
            data.telefono, d, some db.now, db.now⟩ := by simpa using hb
        have := hwf.1 a ha
        rw [hb']
        simp only [ne_eq]
        omega
      · intro c' hc' hid
        rcases List.mem_append.mp hc' with hmem | hmem
        · have := hwf.1 c' hmem
          rw [hc] at hid
          simp only at hid
          omega
        · have hc'eq : c' = ⟨db.nextContactoId, nid, data.tipo, data.nombre,
              data.telefono, d, some db.now, db.now⟩ := by simpa using hmem
          have htx : txsOf ({ db with
              contactos := db.contactos ++
                [⟨db.nextContactoId, nid, data.tipo, data.nombre, data.telefono,
                  d, some db.now, db.now⟩],
              transacciones := db.transacciones ++
                [⟨db.nextTransaccionId, db.nextContactoId, "deuda", d,
                  "Deuda inicial", db.now⟩],
              nextContactoId := db.nextContactoId + 1,
              nextTransaccionId := db.nextTransaccionId + 1 }) c.id =
              [⟨db.nextTransaccionId, db.nextContactoId, "deuda", d,
                "Deuda inicial", db.now⟩] := by
            rw [hc]
            simp only [txsOf, List.filter_append]
            simp only [txsOf] at htx0
            rw [htx0]
            simp [List.filter]
          rw [htx, hc'eq]
          constructor
          · simp [foldBal, foldStep]
          · exact le_of_lt hdpos

/-! ## Claim C1 -/

/-- **C1.** For every contact created through `crear_contacto` (with a
valid kind and a non-negative — or absent — initial seed debt, the only
values the spec admits) and every sequence of transaction-create
operations applied through `crear_transaccion`, the contact's stored
balance equals the left-fold of its transactions in creation order through
`foldStep` (`balance + amount` for a debt, `max 0 (balance - amount)` for
a payment), and is never negative.  Because a positive seed debt is itself
recorded as the contact's first transaction, the fold from `0` over all of
the contact's transactions coincides with the fold from the seed debt over
the subsequently created ones. -/
theorem c1_balance_fold (db : DB) (nid : Nat) (data : ContactoCreate)
    (reqs : List (Nat × Nat × TransaccionCreate)) (c : Contacto)
    (hwf : WF db) (ht : data.tipo = "clientes" ∨ data.tipo = "proveedores")
    (hd : data.deuda_inicial = none ∨ ∃ d, data.deuda_inicial = some d ∧ 0 ≤ d)
    (hok : (crear_contacto db nid data).2 = .ok c) :
    ∀ c' ∈ (applyTxs reqs (crear_contacto db nid data).1).contactos,
      c'.id = c.id →
        c'.deuda = foldBal (txsOf (applyTxs reqs (crear_contacto db nid data).1) c.id) ∧
          0 ≤ c'.deuda :=
  (balInv_applyTxs c.id reqs _ (balInv_after_crear db nid data c hwf ht hd hok)).2

def c1db : DB := ⟨[], [], [], 1, 1, 1, ⟨0, 0, 0⟩⟩

def c1data : ContactoCreate := ⟨"Ana", "", some 50, "clientes"⟩

def c1reqs : List (Nat × Nat × TransaccionCreate) :=
  [(1, 1, ⟨"pago", 80, ""⟩), (1, 1, ⟨"deuda", 30, ""⟩)]

def c1c : Contacto := ⟨1, 1, "clientes", "Ana", "", 50, some ⟨0, 0, 0⟩, ⟨0, 0, 0⟩⟩

/-- Witness for C1: a contact seeded with debt 50 then hit by a payment of
80 and a debt of 30 satisfies the fold invariant. -/
theorem c1_balance_fold_witness :
    ∃ c', c' ∈ (applyTxs c1reqs (crear_contacto c1db 1 c1data).1).contactos ∧
      c'.id = c1c.id ∧
      c'.deuda = foldBal (txsOf (applyTxs c1reqs (crear_contacto c1db 1 c1data).1) c1c.id) ∧
      0 ≤ c'.deuda := by
  have h := c1_balance_fold c1db 1 c1data c1reqs c1c (by decide) (Or.inl rfl)
    (Or.inr ⟨50, rfl, by decide⟩) (by rfl)
  exact ⟨_, List.mem_cons_self _ _, rfl,
    (h _ (List.mem_cons_self _ _) rfl).1, (h _ (List.mem_cons_self _ _) rfl).2⟩

/-! ## Claim C2 -/

/-- **C2.** A valid transaction-create request (kind `deuda` or `pago`,
amount `> 0`, contact owned by the caller's active business) appends
exactly one transaction row, sets the contact's balance to
`old + amount` for a debt and `max 0 (old - amount)` for a payment (so an
over-large payment clamps to exactly 0), stamps the contact's
`ultimo_movimiento` to now, and returns the new balance. -/
theorem c2_crear_transaccion_ok (db : DB) (nid cid : Nat) (r : TransaccionCreate)
    (c : Contacto)
    (hwf : WF db) (ht : r.tipo = "deuda" ∨ r.tipo = "pago") (hm : 0 < r.monto)
    (hc : c ∈ db.contactos) (hid : c.id = cid) (hnid : c.negocio_id = nid) :
    (crear_transaccion db nid cid r).2 =
        .ok (if r.tipo = "deuda" then c.deuda + r.monto
             else max 0 (c.deuda - r.monto)) ∧
    (crear_transaccion db nid cid r).1.transacciones =
        db.transacciones ++
          [⟨db.nextTransaccionId, cid, r.tipo, r.monto, r.nota, db.now⟩] ∧
    { c with
        deuda := if r.tipo = "deuda" then c.deuda + r.monto
          else max 0 (c.deuda - r.monto),
        ultimo_movimiento := some db.now } ∈
      (crear_transaccion db nid cid r).1.contactos ∧
    (∀ c' ∈ (crear_transaccion db nid cid r).1.contactos, c'.id = cid →
      c'.deuda = (if r.tipo = "deuda" then c.deuda + r.monto
        else max 0 (c.deuda - r.monto)) ∧
      c'.ultimo_movimiento = some db.now) := by
  have hfind : db.contactos.find? (fun x => x.id == cid && x.negocio_id == nid) =
      some c := by
    refine find?_unique_key _ (fun y => y.id) db.contactos hwf.2.2.2.1 c hc
      (by simp [hid, hnid]) ?_
    intro x hp
    simp only [Bool.and_eq_true, beq_iff_eq] at hp
    show x.id = c.id
    rw [hp.1, hid]
  rw [crear_transaccion_ok db nid cid r c ht hm hfind]
  refine ⟨rfl, rfl, ?_, ?_⟩
  · refine List.mem_map.mpr ⟨c, hc, ?_⟩
    simp [updDeuda, hid]
  · intro c' hc' hcid
    rcases List.mem_map.mp hc' with ⟨x, hx, hfx⟩
    have hxid : x.id = cid := by rw [← hcid, ← hfx, updDeuda_id]
    rw [← hfx]
    simp [updDeuda, hxid]

def c2db : DB :=
  ⟨[⟨1, 1, "clientes", "Ana", "", 50, none, ⟨0, 0, 0⟩⟩], [], [], 2, 1, 1, ⟨0, 0, 0⟩⟩

def c2r : TransaccionCreate := ⟨"pago", 80, ""⟩

def c2c : Contacto := ⟨1, 1, "clientes", "Ana", "", 50, none, ⟨0, 0, 0⟩⟩

/-- Witness for C2: balance 50 with a payment of 80 returns and stores
balance exactly 0. -/
theorem c2_crear_transaccion_ok_witness :
    (crear_transaccion c2db 1 1 c2r).2 = .ok (0 : Rat) ∧
    (∀ c' ∈ (crear_transaccion c2db 1 1 c2r).1.contactos, c'.id = 1 →
      c'.deuda = (0 : Rat) ∧ c'.ultimo_movimiento = some ⟨0, 0, 0⟩) := by
  have h := c2_crear_transaccion_ok c2db 1 1 c2r c2c (by decide) (Or.inr rfl)
    (by decide) (by decide) rfl rfl
  have hval : (if c2r.tipo = "deuda" then c2c.deuda + c2r.monto
      else max 0 (c2c.deuda - c2r.monto)) = (0 : Rat) := by
    rw [if_neg (by decide)]
    rw [max_eq_left]
    show c2c.deuda - c2r.monto ≤ 0
    norm_num [c2c, c2r]
  rw [hval] at h
  exact ⟨h.1, h.2.2.2⟩

/-! ## Claim C3 -/

theorem filter_txs_next_nil (db : DB)
    (h : ∀ t ∈ db.transacciones, t.contacto_id < db.nextContactoId) :
    db.transacciones.filter (fun t => t.contacto_id == db.nextContactoId) = [] := by
  rw [List.filter_eq_nil_iff]
  intro t htm
  have := h t htm
  simp only [beq_iff_eq]
  omega

/-- **C3.** Creating a contact with a strictly positive initial debt `d`
yields a row with balance `d`, exactly one transaction (kind `deuda`,
amount `d`, note "Deuda inicial") and `ultimo_movimiento = now`; with
initial debt absent or 0, a row with balance 0, no transactions, and
`ultimo_movimiento` null. -/
theorem c3_crear_contacto_seed (db : DB) (nid : Nat) (data : ContactoCreate)
    (hwf : WF db) (ht : data.tipo = "clientes" ∨ data.tipo = "proveedores") :
    (∀ d : Rat, data.deuda_inicial = some d → 0 < d →
      ∃ c, (crear_contacto db nid data).2 = .ok c ∧
        c ∈ (crear_contacto db nid data).1.contactos ∧
        c.deuda = d ∧ c.ultimo_movimiento = some db.now ∧
        txsOf (crear_contacto db nid data).1 c.id =
          [⟨db.nextTransaccionId, c.id, "deuda", d, "Deuda inicial", db.now⟩]) ∧
    ((data.deuda_inicial = none ∨ data.deuda_inicial = some 0) →
      ∃ c, (crear_contacto db nid data).2 = .ok c ∧
        c ∈ (crear_contacto db nid data).1.contactos ∧
        c.deuda = 0 ∧ c.ultimo_movimiento = none ∧
        txsOf (crear_contacto db nid data).1 c.id = []) := by
  constructor
  · intro d hd hdpos
    rw [crear_contacto_pos db nid data d hwf ht hd hdpos]
    refine ⟨⟨db.nextContactoId, nid, data.tipo, data.nombre, data.telefono, d,
      some db.now, db.now⟩, rfl, by simp, rfl, rfl, ?_⟩
    simp only [txsOf, List.filter_append]
    rw [filter_txs_next_nil db hwf.2.1]
    simp [List.filter]
  · intro hd
    rw [crear_contacto_zero db nid data hwf ht hd]
    refine ⟨⟨db.nextContactoId, nid, data.tipo, data.nombre, data.telefono, 0,
      none, db.now⟩, rfl, by simp, rfl, rfl, ?_⟩
    simp only [txsOf]
    exact filter_txs_next_nil db hwf.2.1

def c3data0 : ContactoCreate := ⟨"Bob", "", none, "clientes"⟩

/-- Witness for C3: seeding with 50 yields balance 50 and the single seed
transaction; creating without a seed yields balance 0 and no
transactions. -/
theorem c3_crear_contacto_seed_witness :
    (∃ c, (crear_contacto c1db 1 c1data).2 = .ok c ∧
      c ∈ (crear_contacto c1db 1 c1data).1.contactos ∧
      c.deuda = 50 ∧ c.ultimo_movimiento = some c1db.now ∧
      txsOf (crear_contacto c1db 1 c1data).1 c.id =
        [⟨c1db.nextTransaccionId, c.id, "deuda", 50, "Deuda inicial", c1db.now⟩]) ∧
    (∃ c, (crear_contacto c1db 1 c3data0).2 = .ok c ∧
      c ∈ (crear_contacto c1db 1 c3data0).1.contactos ∧
      c.deuda = 0 ∧ c.ultimo_movimiento = none ∧
      txsOf (crear_contacto c1db 1 c3data0).1 c.id = []) :=
  ⟨(c3_crear_contacto_seed c1db 1 c1data (by decide) (Or.inl rfl)).1 50 rfl
      (by decide),
    (c3_crear_contacto_seed c1db 1 c3data0 (by decide) (Or.inl rfl)).2
      (Or.inl rfl)⟩

/-! ## Claim C4 -/

/-- **C4 (amended).** Transaction-create validations apply in order:
an invalid kind fails with `InvalidKind`; a valid kind with non-positive
amount fails with `InvalidAmount`; a valid kind and amount with a contact
that is absent or not owned by the caller's active business fails with
`NotFound`.  Each failure returns the store unchanged. -/
theorem c4_crear_transaccion_errors (db : DB) (nid cid : Nat)
    (r : TransaccionCreate) :
    (r.tipo ≠ "deuda" ∧ r.tipo ≠ "pago" →
      crear_transaccion db nid cid r = (db, .error .invalidKind)) ∧
    ((r.tipo = "deuda" ∨ r.tipo = "pago") → r.monto ≤ 0 →
      crear_transaccion db nid cid r = (db, .error .invalidAmount)) ∧
    ((r.tipo = "deuda" ∨ r.tipo = "pago") → 0 < r.monto →
      (∀ c ∈ db.contactos, ¬(c.id = cid ∧ c.negocio_id = nid)) →
      crear_transaccion db nid cid r = (db, .error .notFound)) := by
  refine ⟨crear_transaccion_badKind db nid cid r,
    crear_transaccion_badAmount db nid cid r, ?_⟩
  intro ht hm hnone
  refine crear_transaccion_notFound db nid cid r ht hm ?_
  rw [List.find?_eq_none]
  intro x hx
  simp only [Bool.and_eq_true, beq_iff_eq]
  exact fun hp => hnone x hx ⟨hp.1, hp.2⟩

/-- Counterexample to C4 as stated: a request whose kind is invalid and
whose amount is non-positive fails with `InvalidKind`, not the
`InvalidAmount` the claim requires for every non-positive amount. -/
theorem c4_precedence_counterexample :
    (⟨"x", 0, ""⟩ : TransaccionCreate).monto ≤ 0 ∧
    crear_transaccion c1db 1 1 ⟨"x", 0, ""⟩ = (c1db, .error .invalidKind) ∧
    Err.invalidKind ≠ Err.invalidAmount :=
  ⟨by decide, by rfl, by decide⟩

/-- Witness for C4: each error branch at a concrete input. -/
theorem c4_crear_transaccion_errors_witness :
    crear_transaccion c1db 1 1 ⟨"foo", 5, ""⟩ = (c1db, .error .invalidKind) ∧
    crear_transaccion c1db 1 1 ⟨"pago", 0, ""⟩ = (c1db, .error .invalidAmount) ∧
    crear_transaccion c1db 1 1 ⟨"pago", 5, ""⟩ = (c1db, .error .notFound) :=
  ⟨(c4_crear_transaccion_errors c1db 1 1 ⟨"foo", 5, ""⟩).1 (by decide),
    (c4_crear_transaccion_errors c1db 1 1 ⟨"pago", 0, ""⟩).2.1 (Or.inr rfl)
      (by decide),
    (c4_crear_transaccion_errors c1db 1 1 ⟨"pago", 5, ""⟩).2.2 (Or.inr rfl)
      (by decide) (by decide)⟩

/-! ## Claim C10 -/

/-- **C10.** Sale creation validates its amount: a non-positive amount
fails with `InvalidAmount` and inserts nothing; a positive amount inserts
exactly one sale row for the active business and returns it. -/
theorem c10_crear_venta (db : DB) (nid : Nat) (data : VentaCreate)
    (hwf : WF db) :
    (data.monto ≤ 0 → crear_venta db nid data = (db, .error .invalidAmount)) ∧
    (0 < data.monto →
      crear_venta db nid data =
        ({ db with
            ventas := db.ventas ++
              [⟨db.nextVentaId, nid, data.descripcion, data.monto, db.now⟩],
            nextVentaId := db.nextVentaId + 1 },
          .ok ⟨db.nextVentaId, nid, data.descripcion, data.monto, db.now⟩)) := by
  constructor
  · intro hm
    simp only [crear_venta, if_pos hm]
  · intro hm
    have hids : ∀ x ∈ db.ventas, (x.id == db.nextVentaId) = false := by
      intro x hx
      have := hwf.2.2.1 x hx
      simp only [beq_eq_false_iff_ne, ne_eq]
      omega
    have hfind :
        (db.ventas ++
            [(⟨db.nextVentaId, nid, data.descripcion, data.monto, db.now⟩ :
              Venta)]).find? (fun x => x.id == db.nextVentaId) =
          some ⟨db.nextVentaId, nid, data.descripcion, data.monto, db.now⟩ := by
      rw [find?_append_of_none _ hids]
      simp [List.find?]
    simp only [crear_venta, if_neg (not_le.mpr hm), hfind]

/-- Witness for C10: amount 0 is rejected, amount 5 inserts the row. -/
theorem c10_crear_venta_witness :
    crear_venta c1db 1 ⟨"cafe", 0⟩ = (c1db, .error .invalidAmount) ∧
    crear_venta c1db 1 ⟨"cafe", 5⟩ =
      (⟨[], [], [⟨1, 1, "cafe", 5, ⟨0, 0, 0⟩⟩], 1, 1, 2, ⟨0, 0, 0⟩⟩,
        .ok ⟨1, 1, "cafe", 5, ⟨0, 0, 0⟩⟩) :=
  ⟨(c10_crear_venta c1db 1 ⟨"cafe", 0⟩ (by decide)).1 (by decide),
    (c10_crear_venta c1db 1 ⟨"cafe", 5⟩ (by decide)).2 (by decide)⟩

/-! ## Claim C9 -/

theorem updCampos_id (cid : Nat) (n t : String) (d : Rat) (x : Contacto) :
    (updCampos cid n t d x).id = x.id := by
  unfold updCampos; split <;> rfl

/-- Successful shape of a contact update. -/
theorem editar_contacto_ok (db : DB) (nid cid : Nat) (data : ContactoUpdate)
    (c : Contacto)
    (hpw : db.contactos.Pairwise (fun a b => a.id ≠ b.id))
    (hfind : db.contactos.find? (fun x => x.id == cid && x.negocio_id == nid) =
      some c) :
    editar_contacto db nid cid data =
      ({ db with contactos := db.contactos.map (updCampos cid
          (data.nombre.getD c.nombre) (data.telefono.getD c.telefono)
          (data.deuda.getD c.deuda)) },
        .ok { c with
          nombre := data.nombre.getD c.nombre,
          telefono := data.telefono.getD c.telefono,
          deuda := data.deuda.getD c.deuda }) := by
  have hcp := List.find?_some hfind
  have hcm := List.mem_of_find?_eq_some hfind
  have hcid : c.id = cid := by
    simp only [Bool.and_eq_true, beq_iff_eq] at hcp
    exact hcp.1
  have hupdc : updCampos cid (data.nombre.getD c.nombre)
      (data.telefono.getD c.telefono) (data.deuda.getD c.deuda) c =
      { c with
        nombre := data.nombre.getD c.nombre,
        telefono := data.telefono.getD c.telefono,
        deuda := data.deuda.getD c.deuda } := by
    simp [updCampos, hcid]
  have hupd : (db.contactos.map (updCampos cid (data.nombre.getD c.nombre)
      (data.telefono.getD c.telefono) (data.deuda.getD c.deuda))).find?
        (fun x => x.id == cid) =
      some { c with
        nombre := data.nombre.getD c.nombre,
        telefono := data.telefono.getD c.telefono,
        deuda := data.deuda.getD c.deuda } := by
    refine find?_unique_key _ (fun y => y.id) _
      (pairwise_ids_map _ (updCampos_id cid _ _ _) hpw) _
      (List.mem_map.mpr ⟨c, hcm, hupdc⟩) (by simp [hcid]) ?_
    intro x hp
    simp only [beq_iff_eq] at hp
    show x.id = c.id
    rw [hp, hcid]
  simp only [editar_contacto, hfind, hupd]

/-- **C9.** A contact update on a contact owned by the caller's active
business keeps every omitted field at its prior value, sets every supplied
field to the supplied value, and leaves kind, business id, last-movement
and creation time (and the other tables) unchanged. -/
theorem c9_editar_contacto_frame (db : DB) (nid cid : Nat)
    (data : ContactoUpdate) (c : Contacto)
    (hwf : WF db) (hc : c ∈ db.contactos) (hid : c.id = cid)
    (hnid : c.negocio_id = nid) :
    ∃ c', (editar_contacto db nid cid data).2 = .ok c' ∧
      c'.nombre = data.nombre.getD c.nombre ∧
      c'.telefono = data.telefono.getD c.telefono ∧
      c'.deuda = data.deuda.getD c.deuda ∧
      c'.id = c.id ∧ c'.tipo = c.tipo ∧ c'.negocio_id = c.negocio_id ∧
      c'.ultimo_movimiento = c.ultimo_movimiento ∧
      c'.creado_en = c.creado_en ∧
      (editar_contacto db nid cid data).1.transacciones = db.transacciones ∧
      (editar_contacto db nid cid data).1.ventas = db.ventas := by
  have hfind : db.contactos.find? (fun x => x.id == cid && x.negocio_id == nid) =
      some c := by
    refine find?_unique_key _ (fun y => y.id) db.contactos hwf.2.2.2.1 c hc
      (by simp [hid, hnid]) ?_
    intro x hp
    simp only [Bool.and_eq_true, beq_iff_eq] at hp
    show x.id = c.id
    rw [hp.1, hid]
  rw [editar_contacto_ok db nid cid data c hwf.2.2.2.1 hfind]
  exact ⟨_, rfl, rfl, rfl, rfl, rfl, rfl, rfl, rfl, rfl, rfl, rfl⟩

def c9db : DB :=
  ⟨[⟨1, 1, "clientes", "Ana", "111", 50, none, ⟨0, 0, 0⟩⟩], [], [], 2, 1, 1,
    ⟨0, 0, 0⟩⟩

def c9data : ContactoUpdate := ⟨some "Anita", none, none⟩

def c9c : Contacto := ⟨1, 1, "clientes", "Ana", "111", 50, none, ⟨0, 0, 0⟩⟩

/-- Witness for C9: updating only the name keeps phone and balance. -/
theorem c9_editar_contacto_frame_witness :
    ∃ c', (editar_contacto c9db 1 1 c9data).2 = .ok c' ∧
      c'.nombre = c9data.nombre.getD c9c.nombre ∧
      c'.telefono = c9data.telefono.getD c9c.telefono ∧
      c'.deuda = c9data.deuda.getD c9c.deuda ∧
      c'.id = c9c.id ∧ c'.tipo = c9c.tipo ∧ c'.negocio_id = c9c.negocio_id ∧
      c'.ultimo_movimiento = c9c.ultimo_movimiento ∧
      c'.creado_en = c9c.creado_en ∧
      (editar_contacto c9db 1 1 c9data).1.transacciones = c9db.transacciones ∧
      (editar_contacto c9db 1 1 c9data).1.ventas = c9db.ventas :=
  c9_editar_contacto_frame c9db 1 1 c9data c9c (by decide) (by decide) rfl rfl

/-! ## Claim C5 -/

/-- **C5.** Cross-tenant access is rejected: on a contact or sale whose
business is not the session's active business, update, delete and the
transaction-list read all fail with `NotFound` — the very same error
produced when the id does not exist at all — and leave the store
unchanged. -/
theorem c5_tenant_isolation (db : DB) (nid cid : Nat) (data : ContactoUpdate)
    (hwf : WF db) :
    (∀ c ∈ db.contactos, c.negocio_id ≠ nid →
      editar_contacto db nid c.id data = (db, .error .notFound) ∧
      eliminar_contacto db nid c.id = (db, .error .notFound) ∧
      get_transacciones db nid c.id = .error .notFound) ∧
    (∀ v ∈ db.ventas, v.negocio_id ≠ nid →
      eliminar_venta db nid v.id = (db, .error .notFound)) ∧
    ((∀ c ∈ db.contactos, c.id ≠ cid) →
      editar_contacto db nid cid data = (db, .error .notFound) ∧
      eliminar_contacto db nid cid = (db, .error .notFound) ∧
      get_transacciones db nid cid = .error .notFound) := by
  refine ⟨?_, ?_, ?_⟩
  · intro c hc hneg
    have hnone : db.contactos.find?
        (fun x => x.id == c.id && x.negocio_id == nid) = none := by
      rw [List.find?_eq_none]
      intro x hx
      simp only [Bool.and_eq_true, beq_iff_eq, not_and]
      intro hxid hxn
      have hxc : x = c := mem_eq_of_unique_key (fun y => y.id) db.contactos
        hwf.2.2.2.1 x c hx hc hxid
      exact hneg (hxc ▸ hxn)
    exact ⟨by simp only [editar_contacto, hnone],
      by simp only [eliminar_contacto, hnone],
      by simp only [get_transacciones, hnone]⟩
  · intro v hv hneg
    have hnone : db.ventas.find?
        (fun x => x.id == v.id && x.negocio_id == nid) = none := by
      rw [List.find?_eq_none]
      intro x hx
      simp only [Bool.and_eq_true, beq_iff_eq, not_and]
      intro hxid hxn
      have hxv : x = v := mem_eq_of_unique_key (fun y => y.id) db.ventas
        hwf.2.2.2.2 x v hx hv hxid
      exact hneg (hxv ▸ hxn)
    simp only [eliminar_venta, hnone]
  · intro habs
    have hnone : db.contactos.find?
        (fun x => x.id == cid && x.negocio_id == nid) = none := by
      rw [List.find?_eq_none]
      intro x hx
      simp only [Bool.and_eq_true, beq_iff_eq, not_and]
      intro hxid
      exact absurd hxid (habs x hx)
    exact ⟨by simp only [editar_contacto, hnone],
      by simp only [eliminar_contacto, hnone],
      by simp only [get_transacciones, hnone]⟩

def c5db : DB :=
  ⟨[⟨7, 2, "clientes", "Eva", "", 5, none, ⟨0, 0, 0⟩⟩], [],
    [⟨3, 2, "pan", 4, ⟨0, 0, 0⟩⟩], 8, 1, 4, ⟨0, 0, 0⟩⟩

/-- Witness for C5: a session on business 1 gets `NotFound` on business
2's contact and sale, and on an id that does not exist at all. -/
theorem c5_tenant_isolation_witness :
    (editar_contacto c5db 1 7 ⟨none, none, none⟩ = (c5db, .error .notFound) ∧
      eliminar_contacto c5db 1 7 = (c5db, .error .notFound) ∧
      get_transacciones c5db 1 7 = .error .notFound) ∧
    eliminar_venta c5db 1 3 = (c5db, .error .notFound) ∧
    editar_contacto c5db 1 99 ⟨none, none, none⟩ = (c5db, .error .notFound) := by
  have h := c5_tenant_isolation c5db 1 99 ⟨none, none, none⟩ (by decide)
  exact ⟨h.1 ⟨7, 2, "clientes", "Eva", "", 5, none, ⟨0, 0, 0⟩⟩ (by decide)
      (by decide),
    h.2.1 ⟨3, 2, "pan", 4, ⟨0, 0, 0⟩⟩ (by decide) (by decide),
    (h.2.2 (by decide)).1⟩

/-! ## Claim C6 -/

def c6db : DB :=
  ⟨[⟨1, 1, "clientes", "B", "", 10, none, ⟨0, 0, 0⟩⟩,
    ⟨2, 1, "clientes", "A", "", 50, none, ⟨0, 0, 0⟩⟩,
    ⟨3, 1, "clientes", "C", "", 50, none, ⟨0, 0, 0⟩⟩,
    ⟨4, 1, "clientes", "D", "", 0, none, ⟨0, 0, 0⟩⟩], [], [], 5, 1, 1,
    ⟨0, 0, 0⟩⟩

/-- **C6.** Contact listing returns exactly the active business's contacts
of the requested kind, ordered by balance descending with ties broken by
name ascending; on balances [10, 50, 50, 0] with names [B, A, C, D] the
order is A(50), C(50), B(10), D(0). -/
theorem c6_get_contactos_order :
    (∀ pg db nid tipo buscar,
      List.Sorted ordC (get_contactos pg db nid tipo buscar)) ∧
    (∀ pg db nid tipo (c : Contacto),
      c ∈ get_contactos pg db nid tipo none ↔
        (c ∈ db.contactos ∧ c.negocio_id = nid ∧ c.tipo = tipo)) ∧
    (get_contactos false c6db 1 "clientes" none).map (fun c => c.nombre) =
      ["A", "C", "B", "D"] := by
  refine ⟨?_, ?_, by rfl⟩
  · intro pg db nid tipo buscar
    exact List.sorted_insertionSort ordC _
  · intro pg db nid tipo c
    rw [get_contactos, List.mem_insertionSort, List.mem_filter]
    simp [Bool.and_eq_true, beq_iff_eq, and_assoc]

/-! ## Claim C7 -/

/-- Modelled from the spec's words (§4.5): a trailing 7-day window ending
now — the meaning the claim asserts for the `semana` filter. -/
def trailing7 (now fecha : Fecha) : Prop :=
  now.toSec ≤ fecha.toSec + 7 * secPerDay ∧ fecha.toSec ≤ now.toSec

instance (now fecha : Fecha) : Decidable (trailing7 now fecha) :=
  inferInstanceAs (Decidable (_ ∧ _))

def c7db : DB :=
  ⟨[], [], [⟨1, 1, "venta", 10, ⟨4, 0, 0⟩⟩], 1, 1, 2, ⟨9, 43200, 0⟩⟩

/-- Counterexample to C7 as stated: with the clock on Wednesday noon of
one week (day 9), a sale from the previous Friday (day 4) lies within the
trailing 7-day window ending now, yet the PostgreSQL backend's `semana`
listing (calendar week from Monday, day 7) excludes it. -/
theorem c7_week_counterexample :
    trailing7 c7db.now (⟨4, 0, 0⟩ : Fecha) ∧
    (⟨1, 1, "venta", 10, ⟨4, 0, 0⟩⟩ : Venta) ∈ c7db.ventas ∧
    (⟨1, 1, "venta", 10, ⟨4, 0, 0⟩⟩ : Venta).negocio_id = 1 ∧
    (⟨1, 1, "venta", 10, ⟨4, 0, 0⟩⟩ : Venta) ∉
      get_ventas true c7db 1 "semana" none := by
  refine ⟨by decide, by decide, by decide, by decide⟩

theorem periodoFilter_semana (pg : Bool) (now fecha : Fecha) :
    periodoFilter pg "semana" now fecha = true ↔
      (if pg then (now.day - now.day % 7) * secPerDay ≤ fecha.toSec
       else (now.day - 6) * secPerDay ≤ fecha.toSec) := by
  cases pg <;> simp [periodoFilter]

/-- **C7 (amended).** The two backends disagree on `semana`: the sales
listing and summary include exactly the active business's sales with
`fecha >= date_trunc('week', now)` (the Monday-start calendar week) on
PostgreSQL, and with `fecha >= date('now','-6 days')` (midnight six
calendar days ago) on SQLite — not a trailing 7-day window ending now.
The summary totals agree with the listing. -/
theorem c7_week_filter (pg : Bool) (db : DB) (nid : Nat) :
    (∀ v : Venta,
      v ∈ get_ventas pg db nid "semana" none ↔
        (v ∈ db.ventas ∧ v.negocio_id = nid ∧
          (if pg then (db.now.day - db.now.day % 7) * secPerDay ≤ v.fecha.toSec
           else (db.now.day - 6) * secPerDay ≤ v.fecha.toSec))) ∧
    (get_ventas_resumen pg db nid "semana").2 =
      (get_ventas pg db nid "semana" none).length ∧
    (get_ventas_resumen pg db nid "semana").1 =
      ((get_ventas pg db nid "semana" none).map (fun v => v.monto)).sum := by
  have hfe : db.ventas.filter (fun v =>
      v.negocio_id == nid && periodoFilter pg "semana" db.now v.fecha) =
      db.ventas.filter (fun v =>
        v.negocio_id == nid && periodoFilter pg "semana" db.now v.fecha &&
          match (none : Option String) with
          | none => true
          | some b => likeContains pg b v.descripcion) := by
    exact List.filter_congr (fun v _hv => by simp)
  refine ⟨?_, ?_, ?_⟩
  · intro v
    rw [get_ventas, List.mem_insertionSort, List.mem_filter]
    simp [Bool.and_eq_true, beq_iff_eq, and_assoc, periodoFilter_semana]
  · rw [get_ventas_resumen, get_ventas]
    simp only [List.length_insertionSort]
    rw [hfe]
  · rw [get_ventas_resumen, get_ventas]
    have hperm := (List.perm_insertionSort ordV (db.ventas.filter (fun v =>
      v.negocio_id == nid && periodoFilter pg "semana" db.now v.fecha &&
        match (none : Option String) with
        | none => true
        | some b => likeContains pg b v.descripcion))).map (fun v => v.monto)
    rw [hperm.sum_eq, ← hfe]
    simp only [List.sum_eq_foldl, List.foldl_map]

/-! ## Claim C8 -/

/-- Modelled from the spec's words (§4.3): case-insensitive (ASCII)
substring containment — the matching the claim asserts for both
backends. -/
def ciContains (pat s : String) : Prop :=
  substrOf (pat.toList.map lowerChar) (s.toList.map lowerChar) = true

instance (pat s : String) : Decidable (ciContains pat s) :=
  inferInstanceAs (Decidable (_ = _))

def c8db : DB :=
  ⟨[⟨1, 1, "clientes", "Alice", "", 0, none, ⟨0, 0, 0⟩⟩], [], [], 2, 1, 1,
    ⟨0, 0, 0⟩⟩

/-- Counterexample to C8 as stated: the contact named "Alice" matches the
search "alice" case-insensitively, yet the PostgreSQL backend's listing
(case-sensitive `LIKE`) does not return it. -/
theorem c8_search_counterexample :
    ciContains "alice" "Alice" ∧
    (⟨1, 1, "clientes", "Alice", "", 0, none, ⟨0, 0, 0⟩⟩ : Contacto) ∈
      c8db.contactos ∧
    (⟨1, 1, "clientes", "Alice", "", 0, none, ⟨0, 0, 0⟩⟩ : Contacto) ∉
      get_contactos true c8db 1 "clientes" (some "alice") := by
  refine ⟨by decide, by decide, by decide⟩

/-- **C8 (amended).** The search returns exactly the contacts of the
requested business and kind whose name or phone contains the search
string, where the containment is case-insensitive for ASCII letters on
the SQLite backend but case-sensitive on the PostgreSQL backend. -/
theorem c8_search_membership (pg : Bool) (db : DB) (nid : Nat) (tipo b : String)
    (c : Contacto) :
    c ∈ get_contactos pg db nid tipo (some b) ↔
      (c ∈ db.contactos ∧ c.negocio_id = nid ∧ c.tipo = tipo ∧
        (likeContains pg b c.nombre = true ∨
          likeContains pg b c.telefono = true)) := by
  rw [get_contactos, List.mem_insertionSort, List.mem_filter]
  simp [Bool.and_eq_true, beq_iff_eq, Bool.or_eq_true, and_assoc]
